import Mathlib

/-
Shallow embedding of the slot-reconciliation engine of gamepad-slotter
(src/main.cpp, struct ConnectedPads plus the VigemClient pad list).

Modelling choices:
- A slot index is a Nat; the registry is a list of Slot values (the real
  program uses a fixed array of XUSER_MAX_COUNT = 4 slots; all theorems are
  stated for arbitrary lengths, which covers length 4).
- A device handle (PVIGEM_TARGET) is a Nat; vigem_target_x360_alloc is
  modelled by a ghost fresh-handle counter nextPad, so each created pad is a
  value never used for a live pad before, the way a fresh allocation is.
- XInputGetState probing is modelled by an oracle of type World:
  the probe result for slot i at the t-th probe call of the run is w t i.
  The ghost field clock counts probe calls, so successive probes may see a
  changing outside world, exactly as the real polling loops do.
- std::cout / std::cerr diagnostics are modelled by a ghost log of LogMsg
  values appended in program order.
- A thrown std::runtime_error / std::out_of_range is modelled by
  Except.error carrying the state at the throw point (the log lines emitted
  before the throw are visible in it).
-/

/-- Probe oracle: w t i is the XInputGetState result for slot i at the t-th
probe call of the run. -/
abbrev World := Nat → Nat → Bool

/-- State of a gamepad slot (struct ConnectedPads::Slot, main.cpp lines 87-90). -/
structure Slot where
  m_plugged : Bool := false
  m_managed : Option Nat := none
deriving DecidableEq, Repr

instance : Inhabited Slot := ⟨{}⟩

/-- Diagnostic lines written to std::cout / std::cerr, one constructor per
format call site in main.cpp. -/
inductive LogMsg where
  /-- ERROR: invalid slot (lines 102 and 209) -/
  | errInvalidSlot (i : Nat)
  /-- ERROR: cannot free unmanaged slot (line 213) -/
  | errCannotFreeUnmanaged (i : Nat)
  /-- WARNING: virtual pad unplugged on slot (line 138) -/
  | warnVirtualUnplugged (i : Nat)
  /-- Pad plugged / unplugged (line 141) -/
  | padPlugChange (i : Nat) (plugged : Bool)
  /-- WARNING: virtual pad created on an already managed slot (line 186) -/
  | warnAlreadyManaged (i : Nat)
  /-- WARNING: virtual pad created on an already plugged slot (line 189) -/
  | warnAlreadyPlugged (i : Nat)
  /-- WARNING: slot still unplugged (line 201) -/
  | warnStillUnplugged (i : Nat)
  /-- WARNING: managed slot has been freed but is still plugged (line 231) -/
  | warnFreedStillPlugged (i : Nat)
deriving DecidableEq, Repr

/-- Combined state of struct ConnectedPads and its VigemClient member:
m_slots and m_pads are the two data members of the program; nextPad, clock
and log are ghost fields (fresh-handle supply, probe-call counter,
diagnostic trace). -/
structure ConnectedPads where
  m_slots : List Slot
  m_pads : List Nat
  nextPad : Nat
  clock : Nat
  log : List LogMsg
deriving DecidableEq, Repr

/-- ConnectedPads::isPadPlugged (lines 249-253): one XInputGetState probe,
consuming one tick of the probe clock. -/
def isPadPlugged (w : World) (s : ConnectedPads) (i : Nat) : Bool × ConnectedPads :=
  (w s.clock i, { s with clock := s.clock + 1 })

/-- ConnectedPads::isPlugged (lines 100-105): logs an error when the index is
out of range, then reads m_slots.at(index), which throws std::out_of_range
exactly when the index is out of range. The first component is the list of
diagnostics emitted; Except.error models the throw. -/
def isPlugged (s : ConnectedPads) (index : Nat) : List LogMsg × Except Unit Bool :=
  let lg : List LogMsg :=
    if s.m_slots.length ≤ index then [.errInvalidSlot index] else []
  match s.m_slots[index]? with
  | none => (lg, .error ())
  | some slot => (lg, .ok slot.m_plugged)

/-- Character printed for one slot by ConnectedPads::printState
(lines 110-123), including the unreachable fallback placeholder. -/
def stateChar (i : Nat) (slot : Slot) : Char :=
  if slot.m_plugged && slot.m_managed.isSome then 'x'
  else if slot.m_plugged && !slot.m_managed.isSome then Char.ofNat ('1'.toNat + i)
  else if !slot.m_plugged && slot.m_managed.isSome then 'X'
  else if !slot.m_plugged && !slot.m_managed.isSome then '-'
  else '?'

/-- The state line rendered by ConnectedPads::printState, one character per
slot in index order. -/
def renderState (s : ConnectedPads) : List Char :=
  (List.range s.m_slots.length).map (fun i => stateChar i (s.m_slots.getD i default))

/-- A registry of four slots, all plugged and unmanaged. -/
def sAllPlugged : ConnectedPads :=
  { m_slots := [⟨true, none⟩, ⟨true, none⟩, ⟨true, none⟩, ⟨true, none⟩]
    m_pads := [], nextPad := 0, clock := 0, log := [] }

/-- Claim C8, counterexample: at index 4 on a four-slot registry, isPlugged
logs the out-of-range diagnostic and then raises (the at call throws
std::out_of_range), while the claim states the failure is logged and not
raised. -/
theorem C8_counterexample :
    isPlugged sAllPlugged 4 = ([LogMsg.errInvalidSlot 4], Except.error ()) := rfl

/-- Claim C8 (amended): for every index greater than or equal to N, isPlugged
logs an out-of-range diagnostic and then raises an out-of-range error; for
every index less than N it returns the physically-present flag of that slot
with no diagnostic. -/
theorem C8_isPlugged_range (s : ConnectedPads) (index : Nat) :
    (s.m_slots.length ≤ index →
      isPlugged s index = ([LogMsg.errInvalidSlot index], Except.error ()))
    ∧ (index < s.m_slots.length →
      isPlugged s index = ([], Except.ok ((s.m_slots.getD index default).m_plugged))) := by
  constructor
  · intro h
    have hnone : s.m_slots[index]? = none := by
      rw [List.getElem?_eq_none_iff]
      exact h
    simp [isPlugged, hnone, h]
  · intro h
    have hsome : s.m_slots[index]? = some s.m_slots[index] := List.getElem?_eq_getElem h
    have hd : s.m_slots.getD index default = s.m_slots[index] := List.getD_eq_getElem s.m_slots default h
    simp [isPlugged, hsome, hd, Nat.not_le.mpr h]

/-- Claim C8 witness: the amended theorem applied to the all-plugged four-slot
registry at the in-range index 2. -/
theorem C8_witness : isPlugged sAllPlugged 2 = ([], Except.ok true) :=
  (C8_isPlugged_range sAllPlugged 2).2 (by decide)

/-- Claim C10: for every combination of the two per-slot fields and every slot
index of the four-slot registry, the state-rendering character is exactly the
one the derived state prescribes (x for VirtualManaged, the 1-based digit for
PhysicalUnmanaged, X for Erroneous, - for Free), and the fallback placeholder
is never produced. -/
theorem C10_stateChar_total (slot : Slot) (i : Nat) (h : i < 4) :
    (stateChar i slot =
      if slot.m_plugged then
        (if slot.m_managed.isSome then 'x' else Char.ofNat ('1'.toNat + i))
      else
        (if slot.m_managed.isSome then 'X' else '-'))
    ∧ stateChar i slot ≠ '?' := by
  obtain ⟨p, m⟩ := slot
  cases p <;> cases m <;>
    simp only [stateChar, Option.isSome] <;>
    interval_cases i <;> simp_all

/-- Claim C10 witness: the theorem applied to a plugged unmanaged slot at
index 2, whose rendered character is the digit 3. -/
theorem C10_witness :
    (stateChar 2 ⟨true, none⟩ =
      if (Slot.mk true none).m_plugged then
        (if (Slot.mk true none).m_managed.isSome then 'x' else Char.ofNat ('1'.toNat + 2))
      else
        (if (Slot.mk true none).m_managed.isSome then 'X' else '-'))
    ∧ stateChar 2 ⟨true, none⟩ ≠ '?' :=
  C10_stateChar_total ⟨true, none⟩ 2 (by decide)
/-- Probe oracle that always reports present. -/
def wTrue : World := fun _ _ => true

/-- Probe oracle that always reports absent. -/
def wFalse : World := fun _ _ => false

theorem getD_set_ne_slot {l : List Slot} {i j : Nat} (h : i ≠ j) (a : Slot) :
    (l.set i a).getD j default = l.getD j default := by
  rw [List.getD_eq_getElem?_getD, List.getD_eq_getElem?_getD, List.getElem?_set_ne h]

theorem getD_set_self_slot {l : List Slot} {i : Nat} (h : i < l.length) (a : Slot) :
    (l.set i a).getD i default = a := by
  rw [List.getD_eq_getElem?_getD, List.getElem?_set_self h, Option.getD_some]

theorem filterMap_managed_set (l : List Slot) (i : Nat) (p : Bool) :
    (l.set i ⟨p, (l.getD i default).m_managed⟩).filterMap Slot.m_managed
      = l.filterMap Slot.m_managed := by
  induction l generalizing i with
  | nil => simp
  | cons hd tl ih =>
    cases i with
    | zero =>
      obtain ⟨hp2, hm2⟩ := hd
      cases hm2 <;> rfl
    | succ i =>
      obtain ⟨hp2, hm2⟩ := hd
      cases hm2 <;>
        simp only [List.getD_cons_succ, List.set_cons_succ, List.filterMap_cons] <;>
        rw [ih i]

/-- One iteration of the for loop of ConnectedPads::updatePlugged
(lines 133-145): probe slot i, log the transition, store the probe result
into the slot, preserving its managed handle. -/
def updateStep (w : World) (s : ConnectedPads) (i : Nat) : ConnectedPads :=
  let p := (isPadPlugged w s i).1
  let slot := s.m_slots.getD i default
  let lg : List LogMsg :=
    if slot.m_managed.isSome then
      (if p then [] else [.warnVirtualUnplugged i])
    else if slot.m_plugged != p then [.padPlugChange i p] else []
  { (isPadPlugged w s i).2 with
      m_slots := s.m_slots.set i ⟨p, slot.m_managed⟩,
      log := s.log ++ lg }

/-- The for loop of ConnectedPads::updatePlugged (lines 131-147): n remaining
slots starting at index i, accumulating the changed flag. -/
def updateGo (w : World) : Nat → Nat → ConnectedPads → Bool → ConnectedPads × Bool
  | _, 0, s, changed => (s, changed)
  | i, n+1, s, changed =>
    updateGo w (i+1) n (updateStep w s i)
      (changed || ((s.m_slots.getD i default).m_plugged != w s.clock i))

/-- ConnectedPads::updatePlugged (lines 130-148). -/
def updatePlugged (w : World) (s : ConnectedPads) : ConnectedPads × Bool :=
  updateGo w 0 s.m_slots.length s false

theorem updateStep_slots (w : World) (s : ConnectedPads) (i : Nat) :
    (updateStep w s i).m_slots
      = s.m_slots.set i ⟨w s.clock i, (s.m_slots.getD i default).m_managed⟩ := rfl

theorem updateStep_clock (w : World) (s : ConnectedPads) (i : Nat) :
    (updateStep w s i).clock = s.clock + 1 := rfl

theorem updateStep_pads (w : World) (s : ConnectedPads) (i : Nat) :
    (updateStep w s i).m_pads = s.m_pads := rfl

theorem updateStep_nextPad (w : World) (s : ConnectedPads) (i : Nat) :
    (updateStep w s i).nextPad = s.nextPad := rfl

theorem updateStep_length (w : World) (s : ConnectedPads) (i : Nat) :
    (updateStep w s i).m_slots.length = s.m_slots.length := by
  rw [updateStep_slots, List.length_set]

theorem updateStep_managed (w : World) (s : ConnectedPads) (i : Nat) :
    (updateStep w s i).m_slots.filterMap Slot.m_managed
      = s.m_slots.filterMap Slot.m_managed := by
  rw [updateStep_slots, filterMap_managed_set]

theorem updateStep_getD_ne (w : World) (s : ConnectedPads) {i j : Nat} (h : i ≠ j) :
    (updateStep w s i).m_slots.getD j default = s.m_slots.getD j default := by
  rw [updateStep_slots, getD_set_ne_slot h]

theorem updateStep_getD_self (w : World) (s : ConnectedPads) {i : Nat}
    (h : i < s.m_slots.length) :
    (updateStep w s i).m_slots.getD i default
      = ⟨w s.clock i, (s.m_slots.getD i default).m_managed⟩ := by
  rw [updateStep_slots, getD_set_self_slot h]

theorem updateGo_zero (w : World) (i : Nat) (s : ConnectedPads) (c : Bool) :
    updateGo w i 0 s c = (s, c) := rfl

theorem updateGo_succ (w : World) (i n : Nat) (s : ConnectedPads) (c : Bool) :
    updateGo w i (n+1) s c
      = updateGo w (i+1) n (updateStep w s i)
          (c || ((s.m_slots.getD i default).m_plugged != w s.clock i)) := rfl

theorem exists_lt_succ_head (P : Nat → Prop) (n : Nat) :
    (∃ k, k < n + 1 ∧ P k) ↔ (P 0 ∨ ∃ k, k < n ∧ P (k+1)) := by
  constructor
  · rintro ⟨k, hk, hp⟩
    cases k with
    | zero => exact Or.inl hp
    | succ k => exact Or.inr ⟨k, by omega, hp⟩
  · rintro (hp | ⟨k, hk, hp⟩)
    exacts [⟨0, by omega, hp⟩, ⟨k+1, by omega, hp⟩]

theorem updateGo_frame (w : World) :
    ∀ (n i : Nat) (s : ConnectedPads) (changed : Bool),
      (updateGo w i n s changed).1.m_pads = s.m_pads
      ∧ (updateGo w i n s changed).1.nextPad = s.nextPad
      ∧ (updateGo w i n s changed).1.m_slots.filterMap Slot.m_managed
          = s.m_slots.filterMap Slot.m_managed
      ∧ (updateGo w i n s changed).1.m_slots.length = s.m_slots.length := by
  intro n
  induction n with
  | zero => intro i s changed; simp [updateGo_zero]
  | succ n ih =>
    intro i s changed
    rw [updateGo_succ]
    obtain ⟨h1, h2, h3, h4⟩ := ih (i+1) (updateStep w s i)
      (changed || ((s.m_slots.getD i default).m_plugged != w s.clock i))
    exact ⟨by rw [h1, updateStep_pads], by rw [h2, updateStep_nextPad],
      by rw [h3, updateStep_managed], by rw [h4, updateStep_length]⟩

theorem updateGo_spec (w : World) :
    ∀ (n i : Nat) (s : ConnectedPads) (changed : Bool),
      i + n ≤ s.m_slots.length →
      ((updateGo w i n s changed).2 = true ↔
        (changed = true ∨ ∃ k, k < n ∧
          (s.m_slots.getD (i + k) default).m_plugged ≠ w (s.clock + k) (i + k)))
      ∧ (updateGo w i n s changed).1.clock = s.clock + n
      ∧ (∀ j, i ≤ j → j < i + n →
          ((updateGo w i n s changed).1.m_slots.getD j default).m_plugged
            = w (s.clock + (j - i)) j)
      ∧ (∀ j, j < i ∨ i + n ≤ j →
          (updateGo w i n s changed).1.m_slots.getD j default
            = s.m_slots.getD j default) := by
  intro n
  induction n with
  | zero =>
    intro i s changed h
    refine ⟨by simp [updateGo_zero], by simp [updateGo_zero], ?_, ?_⟩
    · intro j hij hj; omega
    · intro j hj; simp [updateGo_zero]
  | succ n ih =>
    intro i s changed h
    rw [updateGo_succ]
    have hi : i < s.m_slots.length := by omega
    obtain ⟨h1, h2, h3, h4⟩ := ih (i+1) (updateStep w s i)
      (changed || ((s.m_slots.getD i default).m_plugged != w s.clock i))
      (by rw [updateStep_length]; omega)
    have hshift : ∀ k, k < n →
        ((((updateStep w s i).m_slots.getD ((i+1) + k) default).m_plugged
            ≠ w ((updateStep w s i).clock + k) ((i+1) + k))
          ↔ ((s.m_slots.getD (i + (k+1)) default).m_plugged
            ≠ w (s.clock + (k+1)) (i + (k+1)))) := by
      intro k hk
      have hne : i ≠ i + (k+1) := by omega
      have e1 : (i+1) + k = i + (k+1) := by omega
      have e2 : (updateStep w s i).clock + k = s.clock + (k+1) := by
        rw [updateStep_clock]; omega
      rw [e1, updateStep_getD_ne w s hne, e2]
    refine ⟨?_, ?_, ?_, ?_⟩
    · have hEx := exists_lt_succ_head
        (fun k => (s.m_slots.getD (i + k) default).m_plugged ≠ w (s.clock + k) (i + k)) n
      constructor
      · intro hres
        rcases h1.1 hres with hor | ⟨k, hk, hq⟩
        · have hor2 : changed = true
              ∨ ((s.m_slots.getD i default).m_plugged != w s.clock i) = true := by
            simpa using hor
          rcases hor2 with hc | hc
          · exact Or.inl hc
          · exact Or.inr (hEx.2 (Or.inl (bne_iff_ne.1 hc)))
        · exact Or.inr (hEx.2 (Or.inr ⟨k, hk, (hshift k hk).1 hq⟩))
      · intro hres
        rcases hres with hc | hex
        · exact h1.2 (Or.inl (by rw [hc, Bool.true_or]))
        · rcases hEx.1 hex with hp0 | ⟨k, hk, hp⟩
          · have hp0b : (s.m_slots.getD i default).m_plugged ≠ w s.clock i := hp0
            exact h1.2 (Or.inl (by rw [bne_iff_ne.2 hp0b, Bool.or_true]))
          · exact h1.2 (Or.inr ⟨k, hk, (hshift k hk).2 hp⟩)
    · rw [h2, updateStep_clock]; omega
    · intro j hij hj
      rcases Nat.eq_or_lt_of_le hij with heq | hlt
      · subst heq
        have hj4 := h4 i (Or.inl (by omega))
        rw [hj4, updateStep_getD_self w s hi]
        simp
      · have e : (updateStep w s i).clock + (j - (i+1)) = s.clock + (j - i) := by
          rw [updateStep_clock]; omega
        have hj3 := h3 j (by omega) (by omega)
        rw [e] at hj3
        exact hj3
    · intro j hj
      have hne : i ≠ j := by omega
      have hj4 := h4 j (by omega)
      rw [hj4, updateStep_getD_ne w s hne]

/-- Claim C3: updatePlugged re-probes all N slots in index order with no
early exit (the probe clock advances by exactly N, slot i being probed at
tick clock + i, and every slot stores its fresh probe result), and its
returned flag is true if and only if some slot's stored physically-present
value differs from the fresh probe result for that slot. -/
theorem C3_updatePlugged_spec (w : World) (s : ConnectedPads) :
    ((updatePlugged w s).2 = true ↔
      ∃ i, i < s.m_slots.length ∧
        (s.m_slots.getD i default).m_plugged ≠ w (s.clock + i) i)
    ∧ (updatePlugged w s).1.clock = s.clock + s.m_slots.length
    ∧ (∀ i, i < s.m_slots.length →
        ((updatePlugged w s).1.m_slots.getD i default).m_plugged = w (s.clock + i) i) := by
  obtain ⟨h1, h2, h3, h4⟩ := updateGo_spec w s.m_slots.length 0 s false (by omega)
  refine ⟨?_, h2, ?_⟩
  · rw [updatePlugged, h1]
    constructor
    · rintro (hf | ⟨k, hk, hp⟩)
      · exact absurd hf (by simp)
      · exact ⟨k, hk, by simpa using hp⟩
    · rintro ⟨k, hk, hp⟩
      exact Or.inr ⟨k, hk, by simpa using hp⟩
  · intro i hlt
    have := h3 i (by omega) (by omega)
    simpa using this

/-- Claim C3 witness: the theorem applied to the always-present oracle on the
all-plugged registry; the probe clock advances by the full slot count and
slot 3 is probed at tick 3. -/
theorem C3_witness :
    (updatePlugged wTrue sAllPlugged).1.clock
        = sAllPlugged.clock + sAllPlugged.m_slots.length
    ∧ ((updatePlugged wTrue sAllPlugged).1.m_slots.getD 3 default).m_plugged
        = wTrue (sAllPlugged.clock + 3) 3 :=
  ⟨(C3_updatePlugged_spec wTrue sAllPlugged).2.1,
    (C3_updatePlugged_spec wTrue sAllPlugged).2.2 3 (by decide)⟩

/-- Inner index scan of the pollNewIndex lambda (lines 167-174): n indices
starting at i; a slot whose stored m_plugged is already true is skipped
without probing; the others are probed in index order and the first index
whose probe reports present is returned. -/
def scanOnce (w : World) : Nat → Nat → ConnectedPads → Option Nat × ConnectedPads
  | _, 0, s => (none, s)
  | i, n+1, s =>
    if (s.m_slots.getD i default).m_plugged then
      scanOnce w (i+1) n s
    else
      if (isPadPlugged w s i).1 then (some i, (isPadPlugged w s i).2)
      else scanOnce w (i+1) n (isPadPlugged w s i).2

/-- The pollNewIndex lambda of ConnectedPads::fillAll (lines 162-178): up to
the given number of tries (the program fixes timeout_tries = 100 at roughly
10 ms spacing), scan all slots once per try; if no try finds a newly present
slot the lambda throws the fatal discovery timeout, modelled by Except.error
carrying the state at the throw. -/
def pollNewIndex (w : World) : Nat → ConnectedPads → Except ConnectedPads (Nat × ConnectedPads)
  | 0, s => .error s
  | tries+1, s =>
    match scanOnce w 0 s.m_slots.length s with
    | (some i, s2) => .ok (i, s2)
    | (none, s2) => pollNewIndex w tries s2

/-- True exactly when the discovery poll ended in the fatal timeout throw. -/
def timedOut : Except ConnectedPads (Nat × ConnectedPads) → Bool
  | .error _ => true
  | .ok _ => false

theorem scanOnce_zero (w : World) (i : Nat) (s : ConnectedPads) :
    scanOnce w i 0 s = (none, s) := rfl

theorem scanOnce_succ (w : World) (i n : Nat) (s : ConnectedPads) :
    scanOnce w i (n+1) s
      = if (s.m_slots.getD i default).m_plugged then
          scanOnce w (i+1) n s
        else
          if w s.clock i then (some i, { s with clock := s.clock + 1 })
          else scanOnce w (i+1) n { s with clock := s.clock + 1 } := rfl

theorem pollNewIndex_zero (w : World) (s : ConnectedPads) :
    pollNewIndex w 0 s = .error s := rfl

theorem pollNewIndex_succ (w : World) (t : Nat) (s : ConnectedPads) :
    pollNewIndex w (t+1) s
      = match scanOnce w 0 s.m_slots.length s with
        | (some i, s2) => .ok (i, s2)
        | (none, s2) => pollNewIndex w t s2 := rfl

theorem scanOnce_frame (w : World) :
    ∀ (n i : Nat) (s : ConnectedPads),
      (scanOnce w i n s).2.m_slots = s.m_slots
      ∧ (scanOnce w i n s).2.m_pads = s.m_pads
      ∧ (scanOnce w i n s).2.nextPad = s.nextPad
      ∧ (scanOnce w i n s).2.log = s.log := by
  intro n
  induction n with
  | zero => intro i s; exact ⟨rfl, rfl, rfl, rfl⟩
  | succ n ih =>
    intro i s
    rw [scanOnce_succ]
    split_ifs with h1 h2
    · exact ih (i+1) s
    · exact ⟨rfl, rfl, rfl, rfl⟩
    · exact ih (i+1) { s with clock := s.clock + 1 }

theorem scanOnce_some (w : World) :
    ∀ (n i : Nat) (s : ConnectedPads) (j : Nat) (s2 : ConnectedPads),
      scanOnce w i n s = (some j, s2) →
      (s.m_slots.getD j default).m_plugged = false ∧ i ≤ j ∧ j < i + n := by
  intro n
  induction n with
  | zero =>
    intro i s j s2 h
    rw [scanOnce_zero] at h
    simp at h
  | succ n ih =>
    intro i s j s2 h
    rw [scanOnce_succ] at h
    split_ifs at h with h1 h2
    · obtain ⟨hf, hle, hlt⟩ := ih (i+1) s j s2 h
      exact ⟨hf, by omega, by omega⟩
    · simp only [Prod.mk.injEq, Option.some.injEq] at h
      obtain ⟨rfl, _⟩ := h
      exact ⟨by simpa using h1, by omega, by omega⟩
    · obtain ⟨hf, hle, hlt⟩ := ih (i+1) { s with clock := s.clock + 1 } j s2 h
      exact ⟨hf, by omega, by omega⟩

theorem scanOnce_congr (w w2 : World) :
    ∀ (n i : Nat) (s : ConnectedPads),
      i + n ≤ s.m_slots.length →
      (∀ t q, q < s.m_slots.length →
        (s.m_slots.getD q default).m_plugged = false → w t q = w2 t q) →
      scanOnce w i n s = scanOnce w2 i n s := by
  intro n
  induction n with
  | zero => intro i s hlen hyp; rfl
  | succ n ih =>
    intro i s hlen hyp
    rw [scanOnce_succ, scanOnce_succ]
    by_cases h1 : (s.m_slots.getD i default).m_plugged
    · rw [if_pos h1, if_pos h1]
      exact ih (i+1) s (by omega) hyp
    · rw [if_neg h1, if_neg h1]
      have hf : (s.m_slots.getD i default).m_plugged = false := by simpa using h1
      have he : w2 s.clock i = w s.clock i := (hyp s.clock i (by omega) hf).symm
      rw [he]
      by_cases h2 : w s.clock i
      · rw [if_pos h2, if_pos h2]
      · rw [if_neg h2, if_neg h2]
        exact ih (i+1) { s with clock := s.clock + 1 }
          (show i + 1 + n ≤ s.m_slots.length by omega) hyp

theorem scanOnce_none (w : World) :
    ∀ (n i : Nat) (s : ConnectedPads),
      i + n ≤ s.m_slots.length →
      (∀ t q, q < s.m_slots.length →
        (s.m_slots.getD q default).m_plugged = false → w t q = false) →
      (scanOnce w i n s).1 = none := by
  intro n
  induction n with
  | zero => intro i s hlen hyp; rfl
  | succ n ih =>
    intro i s hlen hyp
    rw [scanOnce_succ]
    by_cases h1 : (s.m_slots.getD i default).m_plugged
    · rw [if_pos h1]
      exact ih (i+1) s (by omega) hyp
    · rw [if_neg h1]
      have hf : (s.m_slots.getD i default).m_plugged = false := by simpa using h1
      have he : w s.clock i = false := hyp s.clock i (by omega) hf
      rw [he]
      simp only [Bool.false_eq_true, if_false]
      exact ih (i+1) { s with clock := s.clock + 1 }
        (show i + 1 + n ≤ s.m_slots.length by omega) hyp

theorem pollNewIndex_ok (w : World) :
    ∀ (t : Nat) (s : ConnectedPads) (j : Nat) (s2 : ConnectedPads),
      pollNewIndex w t s = .ok (j, s2) →
      j < s.m_slots.length
      ∧ (s.m_slots.getD j default).m_plugged = false
      ∧ s2.m_slots = s.m_slots
      ∧ s2.m_pads = s.m_pads
      ∧ s2.nextPad = s.nextPad
      ∧ s2.log = s.log := by
  intro t
  induction t with
  | zero =>
    intro s j s2 h
    rw [pollNewIndex_zero] at h
    simp at h
  | succ t ih =>
    intro s j s2 h
    rw [pollNewIndex_succ] at h
    rcases hscan : scanOnce w 0 s.m_slots.length s with ⟨o, s3⟩
    rw [hscan] at h
    obtain ⟨f1, f2, f3, f4⟩ := scanOnce_frame w s.m_slots.length 0 s
    rw [hscan] at f1 f2 f3 f4
    cases o with
    | some i =>
      simp only [Except.ok.injEq, Prod.mk.injEq] at h
      obtain ⟨hij, hs32⟩ := h
      obtain ⟨hf, _, hlt⟩ := scanOnce_some w s.m_slots.length 0 s i s3 hscan
      subst hij
      subst hs32
      exact ⟨by omega, hf, f1, f2, f3, f4⟩
    | none =>
      obtain ⟨g1, g2, g3, g4, g5, g6⟩ := ih s3 j s2 h
      rw [f1] at g1 g2 g3
      rw [f2] at g4
      rw [f3] at g5
      rw [f4] at g6
      exact ⟨g1, g2, g3, g4, g5, g6⟩

theorem pollNewIndex_congr (w w2 : World) :
    ∀ (t : Nat) (s : ConnectedPads),
      (∀ t2 q, q < s.m_slots.length →
        (s.m_slots.getD q default).m_plugged = false → w t2 q = w2 t2 q) →
      pollNewIndex w t s = pollNewIndex w2 t s := by
  intro t
  induction t with
  | zero => intro s hyp; rfl
  | succ t ih =>
    intro s hyp
    rw [pollNewIndex_succ, pollNewIndex_succ]
    have hsc : scanOnce w 0 s.m_slots.length s = scanOnce w2 0 s.m_slots.length s :=
      scanOnce_congr w w2 s.m_slots.length 0 s (by omega) hyp
    rcases hscan : scanOnce w2 0 s.m_slots.length s with ⟨o, s3⟩
    rw [hsc, hscan]
    obtain ⟨f1, f2, f3, f4⟩ := scanOnce_frame w2 s.m_slots.length 0 s
    rw [hscan] at f1 f2 f3 f4
    cases o with
    | some i => rfl
    | none =>
      have hyp3 : ∀ t2 q, q < s3.m_slots.length →
          (s3.m_slots.getD q default).m_plugged = false → w t2 q = w2 t2 q := by
        rw [f1]; exact hyp
      exact ih s3 hyp3

theorem pollNewIndex_timeout (w : World) :
    ∀ (t : Nat) (s : ConnectedPads),
      (∀ t2 q, q < s.m_slots.length →
        (s.m_slots.getD q default).m_plugged = false → w t2 q = false) →
      timedOut (pollNewIndex w t s) = true := by
  intro t
  induction t with
  | zero => intro s hyp; rfl
  | succ t ih =>
    intro s hyp
    rw [pollNewIndex_succ]
    have hnone := scanOnce_none w s.m_slots.length 0 s (by omega) hyp
    rcases hscan : scanOnce w 0 s.m_slots.length s with ⟨o, s3⟩
    rw [hscan] at hnone
    obtain ⟨f1, f2, f3, f4⟩ := scanOnce_frame w s.m_slots.length 0 s
    rw [hscan] at f1 f2 f3 f4
    simp only at hnone
    subst hnone
    have hyp3 : ∀ t2 q, q < s3.m_slots.length →
        (s3.m_slots.getD q default).m_plugged = false → w t2 q = false := by
      rw [f1]; exact hyp
    exact ih s3 hyp3

/-- Claim C2: the discovery poll of fillAll considers only slots that were not
already physically present when the device creation was issued: its outcome
depends only on probes of such slots, a successful discovery returns such a
slot with the registry unchanged, and it is bounded to the fixed 100 tries
the program passes, exiting by a throw (fatal abort) instead of returning an
index when no such slot's probe reports present within the bound. -/
theorem C2_pollNewIndex_spec (w w2 : World) (s : ConnectedPads) :
    ((∀ t q, q < s.m_slots.length →
        (s.m_slots.getD q default).m_plugged = false → w t q = w2 t q) →
      pollNewIndex w 100 s = pollNewIndex w2 100 s)
    ∧ ((∀ t q, q < s.m_slots.length →
        (s.m_slots.getD q default).m_plugged = false → w t q = false) →
      timedOut (pollNewIndex w 100 s) = true)
    ∧ (∀ j s2, pollNewIndex w 100 s = .ok (j, s2) →
        j < s.m_slots.length
        ∧ (s.m_slots.getD j default).m_plugged = false
        ∧ s2.m_slots = s.m_slots) :=
  ⟨fun hyp => pollNewIndex_congr w w2 100 s hyp,
   fun hyp => pollNewIndex_timeout w 100 s hyp,
   fun j s2 h => by
     obtain ⟨g1, g2, g3, _, _, _⟩ := pollNewIndex_ok w 100 s j s2 h
     exact ⟨g1, g2, g3⟩⟩

/-- A registry of four slots where slots 0 and 1 are free and slots 2 and 3
hold real controllers. -/
def sPoll : ConnectedPads :=
  { m_slots := [⟨false, none⟩, ⟨false, none⟩, ⟨true, none⟩, ⟨true, none⟩]
    m_pads := [], nextPad := 0, clock := 0, log := [] }

/-- Probe oracle that reports present exactly for slots 2 and 3. -/
def wHigh : World := fun _ i => decide (2 ≤ i)

/-- Claim C2 witness: on sPoll, the oracles wFalse and wHigh agree on the two
non-present slots, so discovery behaves identically under them; under wFalse
no considered slot ever reports present and the poll times out fatally; and
under wTrue discovery succeeds with slot 0, which was not present before. -/
theorem C2_witness :
    pollNewIndex wFalse 100 sPoll = pollNewIndex wHigh 100 sPoll
    ∧ timedOut (pollNewIndex wFalse 100 sPoll) = true
    ∧ (0 < sPoll.m_slots.length
        ∧ (sPoll.m_slots.getD 0 default).m_plugged = false
        ∧ ({ sPoll with clock := 1 } : ConnectedPads).m_slots = sPoll.m_slots) :=
  ⟨(C2_pollNewIndex_spec wFalse wHigh sPoll).1 (by
      intro t q hq hp
      have h4 : q < 4 := hq
      interval_cases q
      · rfl
      · rfl
      · exact absurd hp (by decide)
      · exact absurd hp (by decide)),
   (C2_pollNewIndex_spec wFalse wHigh sPoll).2.1 (fun t q hq hp => rfl),
   (C2_pollNewIndex_spec wTrue wTrue sPoll).2.2 0 { sPoll with clock := 1 } rfl⟩

/-- Post-destruction wait loop of ConnectedPads::freeSlot (lines 221-229):
up to the given number of tries (the program fixes 100), store a fresh probe
of the slot into m_plugged and stop as soon as it reports absent. -/
def freeWait (w : World) (index : Nat) : Nat → ConnectedPads → ConnectedPads
  | 0, s => s
  | tries+1, s =>
    let p := (isPadPlugged w s index).1
    let s2 := { (isPadPlugged w s index).2 with
        m_slots := s.m_slots.set index ⟨p, (s.m_slots.getD index default).m_managed⟩ }
    if !p then s2 else freeWait w index tries s2

/-- ConnectedPads::freeSlot (lines 207-233). An out-of-range index logs the
invalid-slot error and then throws from m_slots.at (Except.error); an
unmanaged slot logs and returns; otherwise the pad is removed from the
client (VigemClient::removePad throws when the handle is not registered),
m_managed is cleared, the wait loop runs, and a still-present slot is only
warned about. -/
def freeSlot (w : World) (s : ConnectedPads) (index : Nat) : Except ConnectedPads ConnectedPads :=
  let s1 := if s.m_slots.length ≤ index then
      { s with log := s.log ++ [.errInvalidSlot index] } else s
  match s1.m_slots[index]? with
  | none => .error s1
  | some slot =>
    match slot.m_managed with
    | none => .ok { s1 with log := s1.log ++ [.errCannotFreeUnmanaged index] }
    | some pad =>
      if pad ∈ s1.m_pads then
        let s2 := { s1 with
          m_pads := s1.m_pads.erase pad,
          m_slots := s1.m_slots.set index ⟨slot.m_plugged, none⟩ }
        let s3 := freeWait w index 100 s2
        if (s3.m_slots.getD index default).m_plugged then
          .ok { s3 with log := s3.log ++ [.warnFreedStillPlugged index] }
        else .ok s3
      else .error s1

theorem freeWait_succ (w : World) (index n : Nat) (s : ConnectedPads) :
    freeWait w index (n+1) s
      = (if !(w s.clock index) then
          { s with
            clock := s.clock + 1,
            m_slots := s.m_slots.set index
              ⟨w s.clock index, (s.m_slots.getD index default).m_managed⟩ }
        else freeWait w index n
          { s with
            clock := s.clock + 1,
            m_slots := s.m_slots.set index
              ⟨w s.clock index, (s.m_slots.getD index default).m_managed⟩ }) := rfl

theorem set_plugged_managed (l : List Slot) (index j : Nat) (p : Bool) :
    ((l.set index ⟨p, (l.getD index default).m_managed⟩).getD j default).m_managed
      = (l.getD j default).m_managed := by
  by_cases hij : index = j
  · subst hij
    by_cases hlen : index < l.length
    · rw [getD_set_self_slot hlen]
    · rw [List.set_eq_of_length_le (by omega)]
  · rw [getD_set_ne_slot hij]

theorem freeWait_managed (w : World) (index : Nat) :
    ∀ (n : Nat) (s : ConnectedPads) (j : Nat),
      ((freeWait w index n s).m_slots.getD j default).m_managed
        = (s.m_slots.getD j default).m_managed := by
  intro n
  induction n with
  | zero => intro s j; rfl
  | succ n ih =>
    intro s j
    rw [freeWait_succ]
    split_ifs with h1
    · exact set_plugged_managed s.m_slots index j _
    · exact (ih _ j).trans (set_plugged_managed s.m_slots index j _)

theorem freeWait_frame (w : World) (index : Nat) :
    ∀ (n : Nat) (s : ConnectedPads),
      (freeWait w index n s).m_pads = s.m_pads
      ∧ (freeWait w index n s).nextPad = s.nextPad
      ∧ (freeWait w index n s).log = s.log
      ∧ (freeWait w index n s).m_slots.length = s.m_slots.length := by
  intro n
  induction n with
  | zero => intro s; exact ⟨rfl, rfl, rfl, rfl⟩
  | succ n ih =>
    intro s
    rw [freeWait_succ]
    split_ifs with h1
    · exact ⟨rfl, rfl, rfl, List.length_set s.m_slots index _⟩
    · obtain ⟨a, b, c, d⟩ := ih { s with
        clock := s.clock + 1,
        m_slots := s.m_slots.set index
          ⟨w s.clock index, (s.m_slots.getD index default).m_managed⟩ }
      exact ⟨a, b, c, d.trans (List.length_set s.m_slots index _)⟩

/-- Holds when the operation returned normally and the given slot has no
managed handle in the resulting state. -/
def clearedOk (e : Except ConnectedPads ConnectedPads) (index : Nat) : Prop :=
  match e with
  | .error _ => False
  | .ok s => (s.m_slots.getD index default).m_managed = none

/-- Claim C9, counterexample: on a four-slot registry, freeSlot at the
out-of-range index 9 logs the invalid-slot error and then raises (the at
call throws std::out_of_range, aborting the process), while the claim states
the call fails as a logged no-op. -/
theorem C9_counterexample :
    freeSlot wTrue sAllPlugged 9
      = .error { sAllPlugged with log := [LogMsg.errInvalidSlot 9] } := rfl

/-- Claim C9 (amended): for an out-of-range index, freeSlot logs the
out-of-range diagnostic and then raises, with no device destruction and all
slot state unchanged at the throw; for an in-range index whose slot has no
managed handle, freeSlot is a logged no-op returning normally with no device
destruction and all slot state unchanged. -/
theorem C9_freeSlot_failures (w : World) (s : ConnectedPads) (index : Nat) :
    (s.m_slots.length ≤ index →
      freeSlot w s index
        = .error { s with log := s.log ++ [LogMsg.errInvalidSlot index] })
    ∧ (index < s.m_slots.length →
      (s.m_slots.getD index default).m_managed = none →
      freeSlot w s index
        = .ok { s with log := s.log ++ [LogMsg.errCannotFreeUnmanaged index] }) := by
  constructor
  · intro h
    have hnone : ({ s with log := s.log ++ [LogMsg.errInvalidSlot index] }
        : ConnectedPads).m_slots[index]? = none :=
      List.getElem?_eq_none_iff.2 h
    simp only [freeSlot, if_pos h, hnone]
  · intro h hm
    have hsome : s.m_slots[index]? = some (s.m_slots.getD index default) := by
      rw [List.getD_eq_getElem s.m_slots default h]
      exact List.getElem?_eq_getElem h
    simp only [freeSlot, if_neg (Nat.not_le.mpr h), hsome, hm]

/-- Claim C9 witness: the amended theorem applied to the all-plugged
registry, at the out-of-range index 7 (logged, then raises) and at the
in-range unmanaged index 1 (logged no-op). -/
theorem C9_witness :
    freeSlot wTrue sAllPlugged 7
      = .error { sAllPlugged with log := [LogMsg.errInvalidSlot 7] }
    ∧ freeSlot wTrue sAllPlugged 1
      = .ok { sAllPlugged with log := [LogMsg.errCannotFreeUnmanaged 1] } :=
  ⟨(C9_freeSlot_failures wTrue sAllPlugged 7).1 (by decide),
   (C9_freeSlot_failures wTrue sAllPlugged 1).2 (by decide) (by decide)⟩

/-- Claim C7: for every in-range index whose slot holds a managed handle that
is registered with the bus client, freeSlot returns normally and the slot no
longer has a managed handle, whatever the probe oracle does: in particular
the bounded post-destruction wait may elapse with the slot still reporting
present, and the call still returns normally with m_managed cleared. -/
theorem C7_freeSlot_clears (w : World) (s : ConnectedPads) (index : Nat) (p : Nat)
    (hlen : index < s.m_slots.length)
    (hm : (s.m_slots.getD index default).m_managed = some p)
    (hp : p ∈ s.m_pads) :
    clearedOk (freeSlot w s index) index := by
  have hsome : s.m_slots[index]? = some (s.m_slots.getD index default) := by
    rw [List.getD_eq_getElem s.m_slots default hlen]
    exact List.getElem?_eq_getElem hlen
  have hman : ((freeWait w index 100
      { s with
        m_pads := s.m_pads.erase p,
        m_slots := s.m_slots.set index
          ⟨(s.m_slots.getD index default).m_plugged, none⟩ }).m_slots.getD
        index default).m_managed = none := by
    rw [freeWait_managed]
    show ((s.m_slots.set index
        ⟨(s.m_slots.getD index default).m_plugged, none⟩).getD index default).m_managed = none
    rw [getD_set_self_slot hlen]
  simp only [freeSlot, if_neg (Nat.not_le.mpr hlen), hsome, hm, if_pos hp]
  split_ifs with hfin
  · exact hman
  · exact hman

/-- A registry of four plugged slots where slot 0 is managed by the live
handle 0. -/
def sC7 : ConnectedPads :=
  { m_slots := [⟨true, some 0⟩, ⟨true, none⟩, ⟨true, none⟩, ⟨true, none⟩]
    m_pads := [0], nextPad := 1, clock := 0, log := [] }

/-- Claim C7 witness: the theorem applied to slot 0 of sC7 (the theorem
itself quantifies over every probe oracle, including those under which the
bounded post-destruction wait elapses still present). -/
theorem C7_witness : clearedOk (freeSlot wFalse sC7 0) 0 :=
  C7_freeSlot_clears wFalse sC7 0 0 (by decide) (by decide) (by decide)

/-- The managed handles currently held by the slots, in index order. -/
def managedHandles (s : ConnectedPads) : List Nat :=
  s.m_slots.filterMap Slot.m_managed

/-- Registry invariant: no two slots hold the same managed handle, and every
held handle was drawn from the fresh-handle supply. -/
def HandlesInv (s : ConnectedPads) : Prop :=
  (managedHandles s).Nodup ∧ ∀ q ∈ managedHandles s, q < s.nextPad

/-- VigemClient::addPad (lines 37-47): allocate a fresh handle and register
it with the client. -/
def addPad (s : ConnectedPads) : Nat × ConnectedPads :=
  (s.nextPad, { s with
    nextPad := s.nextPad + 1,
    m_pads := s.m_pads ++ [s.nextPad] })

/-- Lines 184-194 of fillAll: inspect the discovered slot; destroy the new
pad with a warning when the slot is already managed or already plugged,
otherwise assign the pad to the slot (Free to VirtualManaged). -/
def handleDiscovered (s : ConnectedPads) (pad index : Nat) : ConnectedPads :=
  let slot := s.m_slots.getD index default
  if slot.m_managed.isSome then
    { s with
      log := s.log ++ [.warnAlreadyManaged index],
      m_pads := s.m_pads.erase pad }
  else if slot.m_plugged then
    { s with
      log := s.log ++ [.warnAlreadyPlugged index],
      m_pads := s.m_pads.erase pad }
  else
    { s with m_slots := s.m_slots.set index ⟨true, some pad⟩ }

/-- The creation loop of fillAll (lines 181-195): one iteration per free slot
counted up front; each iteration creates one pad, discovers its slot with the
100-try poll, and handles the discovered slot; a discovery timeout propagates
as a throw. -/
def fillLoop (w : World) : Nat → ConnectedPads → Except ConnectedPads ConnectedPads
  | 0, s => .ok s
  | k+1, s =>
    match pollNewIndex w 100 (addPad s).2 with
    | .error e => .error e
    | .ok (index, s2) => fillLoop w k (handleDiscovered s2 (addPad s).1 index)

/-- Final check of fillAll (lines 199-203): warn about every slot still not
plugged, in index order. -/
def logStillUnplugged (s : ConnectedPads) : ConnectedPads :=
  { s with log := s.log ++
      (((List.range s.m_slots.length).filter
          (fun i => !(s.m_slots.getD i default).m_plugged)).map LogMsg.warnStillUnplugged) }

/-- ConnectedPads::fillAll (lines 151-204): count the slots that are not
plugged, run that many creation iterations, then re-run updatePlugged and
warn about still-unplugged slots. -/
def fillAll (w : World) (s : ConnectedPads) : Except ConnectedPads ConnectedPads :=
  let free := s.m_slots.countP (fun sl => !sl.m_plugged)
  match fillLoop w free s with
  | .error e => .error e
  | .ok s1 => .ok (logStillUnplugged (updatePlugged w s1).1)

theorem fillLoop_zero (w : World) (s : ConnectedPads) : fillLoop w 0 s = .ok s := rfl

theorem fillLoop_succ (w : World) (k : Nat) (s : ConnectedPads) :
    fillLoop w (k+1) s
      = match pollNewIndex w 100 (addPad s).2 with
        | .error e => .error e
        | .ok (index, s2) => fillLoop w k (handleDiscovered s2 (addPad s).1 index) := rfl

theorem mem_filterMap_set {l : List Slot} {i : Nat} {a : Slot} {q : Nat}
    (h : q ∈ (l.set i a).filterMap Slot.m_managed) :
    q ∈ l.filterMap Slot.m_managed ∨ a.m_managed = some q := by
  rcases List.mem_filterMap.1 h with ⟨x, hx, hfx⟩
  rcases List.mem_or_eq_of_mem_set hx with hmem | heq
  · exact Or.inl (List.mem_filterMap.2 ⟨x, hmem, hfx⟩)
  · subst heq
    exact Or.inr hfx

theorem nodup_filterMap_set :
    ∀ (l : List Slot) (i pad : Nat),
      (l.getD i default).m_managed = none →
      (l.filterMap Slot.m_managed).Nodup →
      (∀ q ∈ l.filterMap Slot.m_managed, q < pad) →
      ((l.set i ⟨true, some pad⟩).filterMap Slot.m_managed).Nodup := by
  intro l
  induction l with
  | nil => intro i pad h1 h2 h3; simp
  | cons hd tl ih =>
    intro i pad h1 h2 h3
    cases i with
    | zero =>
      rw [List.getD_cons_zero] at h1
      simp only [List.filterMap_cons, h1] at h2 h3
      show (pad :: tl.filterMap Slot.m_managed).Nodup
      exact List.nodup_cons.2
        ⟨fun hmem => absurd (h3 pad hmem) (lt_irrefl pad), h2⟩
    | succ i =>
      rw [List.getD_cons_succ] at h1
      rw [List.set_cons_succ, List.filterMap_cons]
      simp only [List.filterMap_cons] at h2 h3
      cases hh : hd.m_managed with
      | none =>
        simp only [hh] at h2 h3 ⊢
        exact ih i pad h1 h2 h3
      | some b =>
        simp only [hh] at h2 h3 ⊢
        rcases List.nodup_cons.1 h2 with ⟨hb, h2tl⟩
        refine List.nodup_cons.2
          ⟨?_, ih i pad h1 h2tl (fun q hq => h3 q (List.mem_cons_of_mem b hq))⟩
        intro hmem
        rcases mem_filterMap_set hmem with hmem2 | hsome
        · exact hb hmem2
        · have hbp : pad = b := by simpa using hsome
          have hblt : b < pad := h3 b (List.mem_cons_self b _)
          omega

theorem handleDiscovered_nextPad (s2 : ConnectedPads) (pad index : Nat) :
    (handleDiscovered s2 pad index).nextPad = s2.nextPad := by
  simp only [handleDiscovered]
  split_ifs <;> rfl

theorem handleDiscovered_collision (s2 : ConnectedPads) (pad index : Nat)
    (h : (s2.m_slots.getD index default).m_managed.isSome = true
       ∨ (s2.m_slots.getD index default).m_plugged = true) :
    (handleDiscovered s2 pad index).m_slots = s2.m_slots
    ∧ (handleDiscovered s2 pad index).m_pads = s2.m_pads.erase pad
    ∧ ((handleDiscovered s2 pad index).log = s2.log ++ [LogMsg.warnAlreadyManaged index]
       ∨ (handleDiscovered s2 pad index).log = s2.log ++ [LogMsg.warnAlreadyPlugged index]) := by
  by_cases h1 : (s2.m_slots.getD index default).m_managed.isSome = true
  · simp only [handleDiscovered, if_pos h1]
    exact ⟨trivial, trivial, Or.inl trivial⟩
  · have h2 : (s2.m_slots.getD index default).m_plugged = true := by
      rcases h with ha | hb
      · exact absurd ha h1
      · exact hb
    simp only [handleDiscovered, if_neg h1, if_pos h2]
    exact ⟨trivial, trivial, Or.inr trivial⟩

theorem handleDiscovered_assign (s2 : ConnectedPads) (pad index : Nat)
    (hm : (s2.m_slots.getD index default).m_managed = none)
    (hp : (s2.m_slots.getD index default).m_plugged = false) :
    handleDiscovered s2 pad index
      = { s2 with m_slots := s2.m_slots.set index ⟨true, some pad⟩ } := by
  have h1 : ¬((s2.m_slots.getD index default).m_managed.isSome = true) := by
    rw [hm]; simp
  have h2 : ¬((s2.m_slots.getD index default).m_plugged = true) := by
    rw [hp]; simp
  simp only [handleDiscovered, if_neg h1, if_neg h2]

theorem handleDiscovered_inv (s2 : ConnectedPads) (pad index : Nat)
    (hnodup : (managedHandles s2).Nodup)
    (hbound : ∀ q ∈ managedHandles s2, q < pad) :
    (managedHandles (handleDiscovered s2 pad index)).Nodup
    ∧ ∀ q ∈ managedHandles (handleDiscovered s2 pad index), q < pad + 1 := by
  by_cases h1 : (s2.m_slots.getD index default).m_managed.isSome = true
  · simp only [handleDiscovered, if_pos h1, managedHandles]
    exact ⟨hnodup, fun q hq => Nat.lt_succ_of_lt (hbound q hq)⟩
  · by_cases h2 : (s2.m_slots.getD index default).m_plugged = true
    · simp only [handleDiscovered, if_neg h1, if_pos h2, managedHandles]
      exact ⟨hnodup, fun q hq => Nat.lt_succ_of_lt (hbound q hq)⟩
    · have hm : (s2.m_slots.getD index default).m_managed = none := by
        rcases hmm : (s2.m_slots.getD index default).m_managed with _ | v
        · rfl
        · exact absurd (by rw [hmm]; rfl) h1
      simp only [handleDiscovered, if_neg h1, if_neg h2, managedHandles]
      constructor
      · exact nodup_filterMap_set s2.m_slots index pad hm hnodup hbound
      · intro q hq
        rcases mem_filterMap_set hq with hmem | hsome
        · exact Nat.lt_succ_of_lt (hbound q hmem)
        · have hpq : pad = q := by simpa using hsome
          omega

theorem fillLoop_inv (w : World) :
    ∀ (k : Nat) (s : ConnectedPads),
      HandlesInv s →
      ∀ s3, fillLoop w k s = .ok s3 → HandlesInv s3 := by
  intro k
  induction k with
  | zero =>
    intro s hinv s3 h
    rw [fillLoop_zero] at h
    cases h
    exact hinv
  | succ k ih =>
    intro s hinv s3 h
    rw [fillLoop_succ] at h
    rcases hpoll : pollNewIndex w 100 (addPad s).2 with e | ⟨index, s2⟩
    · rw [hpoll] at h
      exact Except.noConfusion h
    · rw [hpoll] at h
      obtain ⟨g1, g2, g3, g4, g5, g6⟩ := pollNewIndex_ok w 100 (addPad s).2 index s2 hpoll
      obtain ⟨hnodup, hbound⟩ := hinv
      have hnodup2 : (managedHandles s2).Nodup := by
        rw [managedHandles, g3]; exact hnodup
      have hbound2 : ∀ q ∈ managedHandles s2, q < (addPad s).1 := by
        rw [managedHandles, g3]; exact hbound
      obtain ⟨hn3, hb3⟩ := handleDiscovered_inv s2 (addPad s).1 index hnodup2 hbound2
      refine ih (handleDiscovered s2 (addPad s).1 index) ⟨hn3, ?_⟩ s3 h
      intro q hq
      have hlt := hb3 q hq
      rw [handleDiscovered_nextPad, g5]
      exact hlt

theorem fillLoop_nextPad (w : World) :
    ∀ (k : Nat) (s s3 : ConnectedPads),
      fillLoop w k s = .ok s3 → s3.nextPad = s.nextPad + k := by
  intro k
  induction k with
  | zero =>
    intro s s3 h
    rw [fillLoop_zero] at h
    cases h
    rfl
  | succ k ih =>
    intro s s3 h
    rw [fillLoop_succ] at h
    rcases hpoll : pollNewIndex w 100 (addPad s).2 with e | ⟨index, s2⟩
    · rw [hpoll] at h
      exact Except.noConfusion h
    · rw [hpoll] at h
      obtain ⟨g1, g2, g3, g4, g5, g6⟩ := pollNewIndex_ok w 100 (addPad s).2 index s2 hpoll
      have hk := ih (handleDiscovered s2 (addPad s).1 index) s3 h
      rw [handleDiscovered_nextPad, g5] at hk
      have : (addPad s).2.nextPad = s.nextPad + 1 := rfl
      omega

theorem updatePlugged_frame (w : World) (s : ConnectedPads) :
    (updatePlugged w s).1.m_pads = s.m_pads
    ∧ (updatePlugged w s).1.nextPad = s.nextPad
    ∧ managedHandles (updatePlugged w s).1 = managedHandles s := by
  obtain ⟨a, b, c, d⟩ := updateGo_frame w s.m_slots.length 0 s false
  exact ⟨a, b, c⟩

/-- Holds when the operation returned normally with no two slots holding the
same managed handle. -/
def nodupOk : Except ConnectedPads ConnectedPads → Prop
  | .error _ => True
  | .ok s => (managedHandles s).Nodup

/-- Holds when the operation returned normally having drawn exactly as many
fresh handles as there were slots counted not plugged at entry. -/
def creationsOk (s : ConnectedPads) : Except ConnectedPads ConnectedPads → Prop
  | .error _ => True
  | .ok s3 => s3.nextPad = s.nextPad + s.m_slots.countP (fun sl => !sl.m_plugged)

theorem fillAll_nodup (w : World) (s : ConnectedPads) (hinv : HandlesInv s) :
    nodupOk (fillAll w s) := by
  simp only [fillAll]
  rcases hfl : fillLoop w (s.m_slots.countP (fun sl => !sl.m_plugged)) s with e | s1
  · rw [hfl]
    trivial
  · rw [hfl]
    have hinv1 := fillLoop_inv w _ s hinv s1 hfl
    show (managedHandles (logStillUnplugged (updatePlugged w s1).1)).Nodup
    have hlog : managedHandles (logStillUnplugged (updatePlugged w s1).1)
        = managedHandles (updatePlugged w s1).1 := rfl
    rw [hlog, (updatePlugged_frame w s1).2.2]
    exact hinv1.1

theorem fillAll_creations (w : World) (s : ConnectedPads) :
    creationsOk s (fillAll w s) := by
  simp only [fillAll]
  rcases hfl : fillLoop w (s.m_slots.countP (fun sl => !sl.m_plugged)) s with e | s1
  · rw [hfl]
    trivial
  · rw [hfl]
    have hnp := fillLoop_nextPad w _ s s1 hfl
    show (logStillUnplugged (updatePlugged w s1).1).nextPad
        = s.nextPad + s.m_slots.countP (fun sl => !sl.m_plugged)
    have hlog : (logStillUnplugged (updatePlugged w s1).1).nextPad
        = (updatePlugged w s1).1.nextPad := rfl
    rw [hlog, (updatePlugged_frame w s1).2.1]
    exact hnp

/-- Claim C1: inside fillAll, starting from a registry satisfying the handle
invariant, a normal return never has two slots holding the same managed
handle; a newly created pad whose discovered slot is already managed or
already physically present is destroyed (removed from the client pad list)
with a warning and without touching any slot, the iteration moving on without
retry (the creation loop runs a fixed count, see the claim C4 theorem);
otherwise the discovered slot goes from Free to VirtualManaged, receiving the
new pad. -/
theorem C1_fillAll_handles (w : World) (s : ConnectedPads) :
    (HandlesInv s → nodupOk (fillAll w s))
    ∧ (∀ (s2 : ConnectedPads) (pad index : Nat),
        ((s2.m_slots.getD index default).m_managed.isSome = true
          ∨ (s2.m_slots.getD index default).m_plugged = true) →
        (handleDiscovered s2 pad index).m_slots = s2.m_slots
        ∧ (handleDiscovered s2 pad index).m_pads = s2.m_pads.erase pad
        ∧ ((handleDiscovered s2 pad index).log
              = s2.log ++ [LogMsg.warnAlreadyManaged index]
            ∨ (handleDiscovered s2 pad index).log
              = s2.log ++ [LogMsg.warnAlreadyPlugged index]))
    ∧ (∀ (s2 : ConnectedPads) (pad index : Nat),
        (s2.m_slots.getD index default).m_managed = none →
        (s2.m_slots.getD index default).m_plugged = false →
        handleDiscovered s2 pad index
          = { s2 with m_slots := s2.m_slots.set index ⟨true, some pad⟩ }) :=
  ⟨fun hinv => fillAll_nodup w s hinv,
   fun s2 pad index h => handleDiscovered_collision s2 pad index h,
   fun s2 pad index hm hp => handleDiscovered_assign s2 pad index hm hp⟩

/-- A freshly constructed registry with four free slots. -/
def sInit : ConnectedPads :=
  { m_slots := [⟨false, none⟩, ⟨false, none⟩, ⟨false, none⟩, ⟨false, none⟩]
    m_pads := [], nextPad := 0, clock := 0, log := [] }

/-- A registry whose slot 0 is Erroneous (managed but not present) and whose
other three slots hold real controllers. -/
def sErr : ConnectedPads :=
  { m_slots := [⟨false, some 0⟩, ⟨true, none⟩, ⟨true, none⟩, ⟨true, none⟩]
    m_pads := [0], nextPad := 1, clock := 0, log := [] }

/-- Probe oracle reporting present for the first five probe calls of the run
and absent afterwards. -/
def wDrop : World := fun t _ => decide (t < 5)

/-- Claim C1 witness: the theorem applied to a full fillAll run from the
four-free-slot registry under the always-present oracle, to a collision at
the Erroneous slot 0 of sErr, and to an assignment at the free slot 0 of
sInit. -/
theorem C1_witness :
    nodupOk (fillAll wTrue sInit)
    ∧ ((handleDiscovered sErr 5 0).m_slots = sErr.m_slots
       ∧ (handleDiscovered sErr 5 0).m_pads = sErr.m_pads.erase 5
       ∧ ((handleDiscovered sErr 5 0).log = sErr.log ++ [LogMsg.warnAlreadyManaged 0]
          ∨ (handleDiscovered sErr 5 0).log = sErr.log ++ [LogMsg.warnAlreadyPlugged 0]))
    ∧ handleDiscovered sInit 5 0
        = { sInit with m_slots := sInit.m_slots.set 0 ⟨true, some 5⟩ } :=
  ⟨(C1_fillAll_handles wTrue sInit).1 ⟨by decide, by decide⟩,
   (C1_fillAll_handles wTrue sInit).2.1 sErr 5 0 (Or.inl (by decide)),
   (C1_fillAll_handles wTrue sInit).2.2 sInit 5 0 (by decide) (by decide)⟩

/-- The count of slots in the Free derived state (not present and not
managed), the quantity named by claim C4. -/
def freeDerivedCount (s : ConnectedPads) : Nat :=
  s.m_slots.countP (fun sl => !sl.m_plugged && !sl.m_managed.isSome)

/-- The fresh-handle counter of a normal result. -/
def okNextPad : Except ConnectedPads ConnectedPads → Option Nat
  | .error _ => none
  | .ok s => some s.nextPad

/-- Claim C4, counterexample: on sErr the Free derived count is 0 (slot 0 is
Erroneous, the rest hold controllers), yet fillAll draws one fresh handle:
the loop count is the number of slots that are not physically present,
which includes Erroneous slots, not the number of Free slots. -/
theorem C4_counterexample :
    freeDerivedCount sErr = 0 ∧ okNextPad (fillAll wDrop sErr) = some 2 :=
  ⟨rfl, rfl⟩

/-- Claim C4 (amended): fillAll computes its iteration count F as the number
of slots that are not physically present (whether or not they are managed),
and a normal return has drawn exactly F fresh device handles, one creation
per iteration. -/
theorem C4_fillAll_creations (w : World) (s : ConnectedPads) :
    creationsOk s (fillAll w s) :=
  fillAll_creations w s

/-- The loop of ConnectedPads::fillAllButOne (lines 239-244): n indices
starting at i; whenever a slot other than the target is recorded not plugged,
run fillAll and then freeSlot on the target. -/
def fillButLoop (w : World) (index : Nat) : Nat → Nat → ConnectedPads → Except ConnectedPads ConnectedPads
  | _, 0, s => .ok s
  | i, n+1, s =>
    if i != index && !(s.m_slots.getD i default).m_plugged then
      match fillAll w s with
      | .error e => .error e
      | .ok s1 =>
        match freeSlot w s1 index with
        | .error e => .error e
        | .ok s2 => fillButLoop w index (i+1) n s2
    else fillButLoop w index (i+1) n s

/-- ConnectedPads::fillAllButOne (lines 238-246). -/
def fillAllButOne (w : World) (s : ConnectedPads) (index : Nat) : Except ConnectedPads ConnectedPads :=
  fillButLoop w index 0 s.m_slots.length s

theorem fillButLoop_zero (w : World) (index i : Nat) (s : ConnectedPads) :
    fillButLoop w index i 0 s = .ok s := rfl

theorem fillButLoop_succ (w : World) (index i n : Nat) (s : ConnectedPads) :
    fillButLoop w index i (n+1) s
      = if i != index && !(s.m_slots.getD i default).m_plugged then
          match fillAll w s with
          | .error e => .error e
          | .ok s1 =>
            match freeSlot w s1 index with
            | .error e => .error e
            | .ok s2 => fillButLoop w index (i+1) n s2
        else fillButLoop w index (i+1) n s := rfl

theorem fillButLoop_noop (w : World) (index : Nat) :
    ∀ (n i : Nat) (s : ConnectedPads),
      i + n ≤ s.m_slots.length →
      (∀ j, j < s.m_slots.length → j ≠ index →
        (s.m_slots.getD j default).m_plugged = true) →
      fillButLoop w index i n s = .ok s := by
  intro n
  induction n with
  | zero => intro i s hlen hyp; rfl
  | succ n ih =>
    intro i s hlen hyp
    rw [fillButLoop_succ]
    have hguard : (i != index && !(s.m_slots.getD i default).m_plugged) = false := by
      by_cases hii : i = index
      · subst hii
        simp
      · rw [hyp i (by omega) hii]
        simp
    rw [hguard]
    simp only [Bool.false_eq_true, if_false]
    exact ih (i+1) s (by omega) hyp

/-- True when some slot other than the target is in the Free derived state
(not physically present and not managed), the guard named by claim C5. -/
def existsOtherFree (s : ConnectedPads) (t : Nat) : Bool :=
  (List.range s.m_slots.length).any (fun i =>
    i != t && !(s.m_slots.getD i default).m_plugged
      && !(s.m_slots.getD i default).m_managed.isSome)

/-- A registry with slot 0 VirtualManaged, slot 1 Erroneous (managed but not
present) and slots 2 and 3 holding real controllers. -/
def sC5x : ConnectedPads :=
  { m_slots := [⟨true, some 0⟩, ⟨false, some 1⟩, ⟨true, none⟩, ⟨true, none⟩]
    m_pads := [0, 1], nextPad := 2, clock := 0, log := [] }

/-- Claim C5, counterexample: in sC5x no slot other than target 0 is Free
(slot 1 is Erroneous, slots 2 and 3 are occupied), yet fillAllButOne is not a
no-op: the loop guard tests only physical presence, so the Erroneous slot 1
triggers a fillAll that draws a fresh handle (and a freeSlot of the target).
The fresh-handle counter moves from 2 to 3. -/
theorem C5_counterexample :
    existsOtherFree sC5x 0 = false
    ∧ okNextPad (fillAllButOne wDrop sC5x 0) = some 3 :=
  ⟨rfl, rfl⟩

/-- Claim C5 (amended): fillAllButOne is a no-op (it returns the state
unchanged: no creation, no destruction, no slot change) unless some slot
other than the target is recorded as not physically present; an Erroneous
slot also triggers the body, so the guard is presence, not Free. -/
theorem C5_fillAllButOne_noop (w : World) (s : ConnectedPads) (t : Nat)
    (h : ∀ j, j < s.m_slots.length → j ≠ t →
      (s.m_slots.getD j default).m_plugged = true) :
    fillAllButOne w s t = .ok s :=
  fillButLoop_noop w t s.m_slots.length 0 s (by omega) h

/-- Claim C5 witness: the amended theorem applied to the all-plugged
registry with target 0. -/
theorem C5_witness : fillAllButOne wTrue sAllPlugged 0 = .ok sAllPlugged :=
  C5_fillAllButOne_noop wTrue sAllPlugged 0 (by decide)

/-- Probe oracle reporting present for the first eight probe calls of the
run and absent afterwards. -/
def w8 : World := fun t _ => decide (t < 8)

/-- The state after fillAllButOne with target 0 on the fresh four-free-slot
registry under w8: slots 1 to 3 VirtualManaged, slot 0 freed back to Free. -/
def s6b : ConnectedPads :=
  { m_slots := [⟨false, none⟩, ⟨true, some 1⟩, ⟨true, some 2⟩, ⟨true, some 3⟩]
    m_pads := [1, 2, 3], nextPad := 4, clock := 9, log := [] }

/-- Probe oracle for the claim C6 counterexample, encoding a run with no
physical state change: every probe transition coincides with a create or a
destroy performed by the engine itself. Slots 2 and 3 hold real controllers
and always report present; slot 0 reports present exactly while a live
engine-created pad backs it (tick 1: the pre-existing pad of sC5x, ticks 6
and 8: the pad created during the second call, absent at ticks 5 and 12
right after freeSlot destroys the backing pad); slot 1 reports present
exactly at the ticks where a pad just created by fillAll lands on it (ticks
0 and 7) and absent again once that colliding pad has been destroyed. -/
def wC6 : World := fun t i =>
  if i == 0 then t == 1 || t == 6 || t == 8
  else if i == 1 then t == 0 || t == 7
  else true

/-- The state reached by the first fillAllButOne call of the claim C6
counterexample: the colliding pad was destroyed, so the Erroneous slot 1 is
still recorded not present and the loop guard of a second call fires again. -/
def s6c : ConnectedPads :=
  { m_slots := [⟨false, none⟩, ⟨false, some 1⟩, ⟨true, none⟩, ⟨true, none⟩]
    m_pads := [1], nextPad := 3, clock := 6
    log := [.warnAlreadyManaged 1, .warnVirtualUnplugged 1, .warnStillUnplugged 1] }

/-- Claim C6, counterexample: from sC5x (slot 1 Erroneous, target 0) under
wC6, whose probe transitions all coincide with the create and destroy
actions of the engine itself (no intervening physical state change), the
first call returns normally reaching s6c, in which slot 1 is still recorded
not present; the second call with the same target is therefore not a no-op:
it draws two further fresh handles (the counter moves from 3 to 5),
refuting both the zero-additional-creations assertion and the justification
that the guard condition of the second call is already false. -/
theorem C6_counterexample :
    fillAllButOne wC6 sC5x 0 = .ok s6c
    ∧ okNextPad (fillAllButOne wC6 s6c 0) = some 5 :=
  ⟨rfl, rfl⟩

/-- Claim C6 (amended): two consecutive fillAllButOne invocations with the
same target perform zero additional device creations or destructions on the
second call provided the first call has left every slot other than the
target recorded as physically present; the guard of the second call is then
false at every loop index and it returns the state unchanged. When a
collision-destroy during the first call leaves a non-target slot not
present (an Erroneous slot, as in the counterexample), the second call
instead retries the deficit. -/
theorem C6_fillAllButOne_idempotent (w1 w2 : World) (s0 s1 : ConnectedPads) (t : Nat)
    (_hfirst : fillAllButOne w1 s0 t = .ok s1)
    (hguard : ∀ j, j < s1.m_slots.length → j ≠ t →
      (s1.m_slots.getD j default).m_plugged = true) :
    fillAllButOne w2 s1 t = .ok s1 :=
  fillButLoop_noop w2 t s1.m_slots.length 0 s1 (by omega) hguard

/-- Claim C6 witness: the amended theorem applied to a real first call
(under w8 it creates four virtual pads from the fresh registry and then
frees target 0) reaching s6b, where every non-target slot is recorded
present, after which the second call returns s6b unchanged under any
oracle. -/
theorem C6_witness : fillAllButOne wTrue s6b 0 = .ok s6b :=
  C6_fillAllButOne_idempotent w8 wTrue sInit s6b 0 rfl (by decide)
